import Mathlib

/-!
Verification development for the coordinate-resolution pipeline of src/script.js
(interactive Leaflet map over a CSV feed).  The source file contains unresolved
merge-conflict markers; every definition below embeds the HEAD side of the
conflict, which is the side carrying the full pipeline (parseCoordinatePair,
axis-swap correction, bounds hint) and the side all line references point at.

Modelling conventions:
- JS numbers are modelled by Q.  All values reachable in this pipeline are
  finite doubles; NaN and the infinities are folded into the none case of
  Option Q at the single point where the source filters them (Number.isFinite
  inside toNumberOrNull).
- Fallible and exception-throwing code is modelled with Option / explicit
  outcome types; a caught exception is the corresponding none branch.
- Stateful pieces (localStorage, the awaited delay) are explicit: functions
  take and return a Storage value and report the milliseconds they awaited.
-/

namespace Mapas

/-- JS whitespace class: the characters matched by the regex class for spaces and
trimmed by String.trim and by Number applied to a string. -/
def isJsSpace (c : Char) : Bool :=
  c.toNat = 9 || c.toNat = 10 || c.toNat = 11 || c.toNat = 12 || c.toNat = 13 ||
  c.toNat = 32 || c.toNat = 160 || c.toNat = 0x1680 ||
  (0x2000 ≤ c.toNat && c.toNat ≤ 0x200a) ||
  c.toNat = 0x2028 || c.toNat = 0x2029 || c.toNat = 0x202f || c.toNat = 0x205f ||
  c.toNat = 0x3000 || c.toNat = 0xfeff

/-- String.trim of JS: drop JS whitespace from both ends (on the character list). -/
def jsTrimList (l : List Char) : List Char :=
  ((l.dropWhile isJsSpace).reverse.dropWhile isJsSpace).reverse

/-- String.trim of JS on strings. -/
def jsTrim (s : String) : String := ⟨jsTrimList s.data⟩

/-- JS String.replace with a plain string pattern replaces only the first
occurrence: this is the replace of the first comma by a dot inside toNumberOrNull. -/
def replaceFirstCommaList : List Char → List Char
  | [] => []
  | c :: r => if c = ',' then '.' :: r else c :: replaceFirstCommaList r

/-- Numeric value of a run of decimal digit characters (most significant first). -/
def digitsToNat (l : List Char) : ℕ :=
  l.foldl (fun a c => 10 * a + (c.toNat - 48)) 0

/-- Result of the ECMAScript StringNumericLiteral conversion when it is not NaN. -/
inductive JsNum where
  | finite (q : ℚ)
  | infinite
deriving DecidableEq

/-- Parses an ExponentPart (e or E, optional sign, at least one digit); returns the
exponent and the remaining characters, or none when no exponent starts here. -/
def parseExponentPart : List Char → Option (ℤ × List Char)
  | c :: rest =>
    if c = 'e' || c = 'E' then
      match rest with
      | s :: r2 =>
        if s = '+' || s = '-' then
          let ds := r2.takeWhile Char.isDigit
          let r3 := r2.dropWhile Char.isDigit
          if ds = [] then none
          else some ((if s = '-' then -(digitsToNat ds : ℤ) else (digitsToNat ds : ℤ)), r3)
        else
          let ds := rest.takeWhile Char.isDigit
          let r3 := rest.dropWhile Char.isDigit
          if ds = [] then none else some ((digitsToNat ds : ℤ), r3)
      | [] => none
    else none
  | [] => none

/-- Exact rational value of the decimal literal with the given integer-part digits,
fraction digits and decimal exponent: the number written I.F times ten to the e.
Built from natural-number arithmetic and Rat.divInt so that concrete inputs
evaluate inside the kernel. -/
def decValue (ipDigits fracDigits : List Char) (e : ℤ) : ℚ :=
  let m : ℕ := digitsToNat ipDigits * 10 ^ fracDigits.length + digitsToNat fracDigits
  let e2 : ℤ := e - fracDigits.length
  if 0 ≤ e2 then Rat.divInt (m * 10 ^ e2.toNat) 1
  else Rat.divInt m (10 ^ (-e2).toNat)

/-- Parses a StrUnsignedDecimalLiteral: Infinity, digits with optional fraction and
exponent, or a leading dot with digits; returns the value and remaining characters. -/
def parseUnsignedDec (l : List Char) : Option (JsNum × List Char) :=
  if l.take 8 = "Infinity".data then some (.infinite, l.drop 8)
  else
    match l with
    | '.' :: r =>
      let ds := r.takeWhile Char.isDigit
      let r2 := r.dropWhile Char.isDigit
      if ds = [] then none
      else
        match parseExponentPart r2 with
        | some (e, r3) => some (.finite (decValue [] ds e), r3)
        | none => some (.finite (decValue [] ds 0), r2)
    | _ =>
      let ds := l.takeWhile Char.isDigit
      let r2 := l.dropWhile Char.isDigit
      if ds = [] then none
      else
        match r2 with
        | '.' :: r3 =>
          let fs := r3.takeWhile Char.isDigit
          let r4 := r3.dropWhile Char.isDigit
          match parseExponentPart r4 with
          | some (e, r5) => some (.finite (decValue ds fs e), r5)
          | none => some (.finite (decValue ds fs 0), r4)
        | _ =>
          match parseExponentPart r2 with
          | some (e, r3) => some (.finite (decValue ds [] e), r3)
          | none => some (.finite (decValue ds [] 0), r2)

/-- Parses the tail of a StrDecimalLiteral after an optional sign, requiring the
whole remaining input to be consumed (anything left over means NaN). -/
def parseDecTail (l : List Char) (negate : Bool) : Option JsNum :=
  match parseUnsignedDec l with
  | some (n, rest) =>
    if rest = [] then
      some (match n, negate with
            | .finite q, true => .finite (-q)
            | .finite q, false => .finite q
            | .infinite, _ => .infinite)
    else none
  | none => none

/-- Parses a StrDecimalLiteral (optional sign, then the unsigned literal). -/
def parseSignedDec (l : List Char) : Option JsNum :=
  match l with
  | '+' :: r => parseDecTail r false
  | '-' :: r => parseDecTail r true
  | _ => parseDecTail l false

/-- Value of one hexadecimal digit character. -/
def hexDigitVal (c : Char) : Option ℕ :=
  if '0' ≤ c && c ≤ '9' then some (c.toNat - 48)
  else if 'a' ≤ c && c ≤ 'f' then some (c.toNat - 87)
  else if 'A' ≤ c && c ≤ 'F' then some (c.toNat - 55)
  else none

/-- Parses a nonempty run of digits in the given radix covering the whole input. -/
def parseRadixNat (radix : ℕ) (l : List Char) : Option ℕ :=
  match l with
  | [] => none
  | _ =>
    l.foldl (fun acc c =>
      match acc, hexDigitVal c with
      | some a, some d => if d < radix then some (radix * a + d) else none
      | _, _ => none) (some 0)

/-- The ECMAScript StringNumericLiteral conversion (Number applied to a string):
trim, empty means 0, a 0x/0o/0b literal without sign, or a signed decimal literal;
none is NaN. -/
def jsStringToNumber (s : String) : Option JsNum :=
  let t := jsTrimList s.data
  match t with
  | [] => some (.finite 0)
  | '0' :: c :: rest =>
    if c = 'x' || c = 'X' then (parseRadixNat 16 rest).map (fun n => .finite (n : ℚ))
    else if c = 'b' || c = 'B' then (parseRadixNat 2 rest).map (fun n => .finite (n : ℚ))
    else if c = 'o' || c = 'O' then (parseRadixNat 8 rest).map (fun n => .finite (n : ℚ))
    else parseSignedDec t
  | _ => parseSignedDec t

/-- toNumberOrNull from the source, for string inputs: replace the first comma by a
dot, convert with Number, and keep only finite results (Number.isFinite); none is
null.  The v == null guard of the source is unreachable for string inputs. -/
def toNumberOrNull (v : String) : Option ℚ :=
  match jsStringToNumber ⟨replaceFirstCommaList v.data⟩ with
  | some (.finite q) => some q
  | _ => none

/-- isValidLat from the source: an inclusive range check (the typeof guard is
carried by the type). -/
def isValidLat (n : ℚ) : Bool := -90 ≤ n && n ≤ 90

/-- isValidLng from the source. -/
def isValidLng (n : ℚ) : Bool := -180 ≤ n && n ≤ 180

/-- The rectangular bounds hint of the source (BOUNDS_HINT shape). -/
structure Bounds where
  minLat : ℚ
  maxLat : ℚ
  minLng : ℚ
  maxLng : ℚ
deriving DecidableEq

/-- isInsideBounds from the source: a missing hint means true. -/
def isInsideBounds (lat lng : ℚ) (b : Option Bounds) : Bool :=
  match b with
  | none => true
  | some bb => bb.minLat ≤ lat && lat ≤ bb.maxLat && bb.minLng ≤ lng && lng ≤ bb.maxLng

/-- Collapses every run of JS whitespace into one space: the global replace of a
whitespace run by a single space at the top of parseCoordinatePair.  The fuel
argument is the input length; each step consumes at least one character. -/
def collapseWsAux : ℕ → List Char → List Char
  | 0, l => l
  | _ + 1, [] => []
  | fuel + 1, c :: r =>
    if isJsSpace c then ' ' :: collapseWsAux fuel (r.dropWhile isJsSpace)
    else c :: collapseWsAux fuel r

/-- The whitespace-collapsing replace on a full list. -/
def collapseWs (l : List Char) : List Char := collapseWsAux l.length l

/-- Reports whether a leftmost match of the pattern separator-run (optional
whitespace, one separator from the given class, optional whitespace) starts at
the head of the list; on a match returns the characters after the match.  The
whitespace parts are greedy, so a match starts here exactly when the first
non-whitespace character ahead is a separator. -/
def sepRunHead (sepSet : Char → Bool) (l : List Char) : Option (List Char) :=
  match l.dropWhile isJsSpace with
  | c :: r => if sepSet c then some (r.dropWhile isJsSpace) else none
  | [] => none

/-- The global regex replace of every separator run by a single comma (used twice
in parseCoordinatePair: once for the class semicolon/comma/pipe, once for the
comma alone).  Fuel is the input length. -/
def replaceSepRunsAux (sepSet : Char → Bool) : ℕ → List Char → List Char
  | 0, l => l
  | _ + 1, [] => []
  | fuel + 1, c :: r =>
    match sepRunHead sepSet (c :: r) with
    | some rest => ',' :: replaceSepRunsAux sepSet fuel rest
    | none => c :: replaceSepRunsAux sepSet fuel r

/-- The input normalisation at the top of parseCoordinatePair: trim, collapse
whitespace, strip brackets and parentheses, normalise semicolon/comma/pipe runs
to a comma, normalise comma runs to a comma. -/
def normalizeCoordText (text : String) : List Char :=
  let s1 := jsTrimList text.data
  let s2 := collapseWs s1
  let s3 := s2.filter (fun c => !(c = '[' || c = ']' || c = '(' || c = ')'))
  let s4 := replaceSepRunsAux (fun c => c = ';' || c = ',' || c = '|') s3.length s3
  replaceSepRunsAux (fun c => c = ',') s4.length s4

/-- The character class of the splitting regex: a comma or JS whitespace. -/
def isSplitSep (c : Char) : Bool := c = ',' || isJsSpace c

/-- JS String.split on a one-or-more repetition of the separator class: maximal
separator runs delimit the pieces, and a leading or trailing run contributes an
empty piece (as JS split does).  Fuel is the input length. -/
def splitRunAux : ℕ → List Char → List Char → List (List Char)
  | 0, acc, l => [acc.reverse ++ l]
  | _ + 1, acc, [] => [acc.reverse]
  | fuel + 1, acc, c :: r =>
    if isSplitSep c then acc.reverse :: splitRunAux fuel [] (r.dropWhile isSplitSep)
    else splitRunAux fuel (c :: acc) r

/-- JS String.split on the separator class, as used in parseCoordinatePair. -/
def splitRun (l : List Char) : List (List Char) := splitRunAux l.length [] l

/-- A match of the free-form number token regex (optional sign, digits, optional
decimal part with dot or comma) starting exactly at the head; returns the token
and the rest.  The fractional group needs at least one digit, else it is not
consumed. -/
def matchNumberAt (l : List Char) : Option (List Char × List Char) :=
  let sign : List Char × List Char :=
    match l with
    | c :: r => if c = '+' || c = '-' then ([c], r) else ([], l)
    | [] => ([], l)
  let ds := sign.2.takeWhile Char.isDigit
  let l2 := sign.2.dropWhile Char.isDigit
  if ds = [] then none
  else
    match l2 with
    | c :: r =>
      if c = '.' || c = ',' then
        let fs := r.takeWhile Char.isDigit
        let l3 := r.dropWhile Char.isDigit
        if fs = [] then some (sign.1 ++ ds, l2)
        else some (sign.1 ++ ds ++ [c] ++ fs, l3)
      else some (sign.1 ++ ds, l2)
    | [] => some (sign.1 ++ ds, l2)

/-- The global match of the free-form number token regex: leftmost,
non-overlapping tokens, scanning forward one character when no token starts at
the current position.  Fuel is the input length. -/
def scanNumbersAux : ℕ → List Char → List (List Char)
  | 0, _ => []
  | _ + 1, [] => []
  | fuel + 1, l =>
    match matchNumberAt l with
    | some (tok, rest) => tok :: scanNumbersAux fuel rest
    | none => scanNumbersAux fuel l.tail

/-- All free-form number tokens of a list, as String.match with the global flag. -/
def scanNumbers (l : List Char) : List (List Char) := scanNumbersAux l.length l

/-- The FORCE_COORDINATE_ORDER configuration values. -/
inductive CoordOrder where
  | auto
  | latlng
  | lnglat
deriving DecidableEq

/-- FORCE_COORDINATE_ORDER from the source. -/
def FORCE_COORDINATE_ORDER : CoordOrder := .auto

/-- BOUNDS_HINT from the source (left null). -/
def BOUNDS_HINT : Option Bounds := none

/-- GEOCODE_DELAY_MS from the source. -/
def GEOCODE_DELAY_MS : ℕ := 900

/-- The shared tail of the two candidate branches of parseCoordinatePair: given
two tokens, parse both, build the direct and swapped candidates from the range
checks, disambiguate with the bounds hint when both candidates exist, and fall
back to the direct candidate. -/
def pairFromTokens (hint : Option Bounds) (x y : String) : Option (ℚ × ℚ) :=
  match toNumberOrNull x, toNumberOrNull y with
  | some pa, some pb =>
    let c1 : Option (ℚ × ℚ) := if isValidLat pa && isValidLng pb then some (pa, pb) else none
    let c2 : Option (ℚ × ℚ) := if isValidLat pb && isValidLng pa then some (pb, pa) else none
    match c1, c2 with
    | some p1, none => some p1
    | none, some p2 => some p2
    | some p1, some p2 =>
      match hint with
      | some bb =>
        let in1 := isInsideBounds p1.1 p1.2 (some bb)
        let in2 := isInsideBounds p2.1 p2.2 (some bb)
        if in1 && !in2 then some p1
        else if in2 && !in1 then some p2
        else some p1
      | none => some p1
    | none, none => none
  | _, _ => none

/-- parseCoordinatePair from the source, with the two configuration globals it
reads (FORCE_COORDINATE_ORDER and BOUNDS_HINT) made explicit parameters: the
forced-order branch, then the exactly-two-token branch, then the free-form scan
for the first two number tokens. -/
def parseCoordinatePairWith (order : CoordOrder) (hint : Option Bounds) (text : String) :
    Option (ℚ × ℚ) :=
  let s := normalizeCoordText text
  let forced : Option (ℚ × ℚ) :=
    match order with
    | .auto => none
    | _ =>
      match splitRun s with
      | a :: b :: _ =>
        match toNumberOrNull ⟨a⟩, toNumberOrNull ⟨b⟩ with
        | some x, some y => if order = .latlng then some (x, y) else some (y, x)
        | _, _ => none
      | _ => none
  match forced with
  | some p => some p
  | none =>
    let std : Option (ℚ × ℚ) :=
      match splitRun s with
      | [x, y] => pairFromTokens hint ⟨x⟩ ⟨y⟩
      | _ => none
    match std with
    | some p => some p
    | none =>
      match scanNumbers s with
      | a :: b :: _ => pairFromTokens hint ⟨a⟩ ⟨b⟩
      | _ => none

/-- parseCoordinatePair at the configuration constants of the source. -/
def parseCoordinatePair (text : String) : Option (ℚ × ℚ) :=
  parseCoordinatePairWith FORCE_COORDINATE_ORDER BOUNDS_HINT text

/-- JSON values, as produced by JSON.parse (numbers as rationals: every value in
this pipeline is a finite double). -/
inductive Json where
  | null
  | bool (b : Bool)
  | num (q : ℚ)
  | str (s : String)
  | arr (elems : List Json)
  | obj (fields : List (String × Json))

/-- Digits of the fractional part of a nonnegative rational by decimal long
division, with fuel; exact whenever the expansion terminates within the fuel,
which holds for every value reachable from a double. -/
def fracDigitsAux : ℕ → ℕ → ℕ → List Char
  | 0, _, _ => []
  | fuel + 1, n, d =>
    if n = 0 then []
    else Char.ofNat (48 + (10 * n) / d) :: fracDigitsAux fuel ((10 * n) % d) d

/-- Decimal text of a rational, as String applied to a JS number renders a finite
double (sign, integer part, fractional digits). -/
def ratRepr (q : ℚ) : String :=
  let n := q.num.natAbs
  let d := q.den
  let sign : List Char := if q.num < 0 then ['-'] else []
  let fd := fracDigitsAux 64 (n % d) d
  ⟨sign ++ Nat.toDigits 10 (n / d) ++ (if fd = [] then [] else '.' :: fd)⟩

mutual

/-- Conversion of one array element inside Array join: null renders empty, every
other value renders as String applied to it. -/
def jsJoinElem : Json → String
  | .null => ""
  | .bool b => if b then "true" else "false"
  | .num q => ratRepr q
  | .str s => s
  | .arr l => jsJoinList l
  | .obj _ => "[object Object]"

/-- Array.prototype.toString: the elements joined with commas. -/
def jsJoinList : List Json → String
  | [] => ""
  | [j] => jsJoinElem j
  | j :: rest => jsJoinElem j ++ "," ++ jsJoinList rest

end

/-- Lookup of an object property built by JSON.parse: with duplicate keys the
last occurrence wins. -/
def lookupLastField : List (String × Json) → String → Option Json
  | [], _ => none
  | (k, v) :: rest, key =>
    match lookupLastField rest key with
    | some r => some r
    | none => if k = key then some v else none

/-- Optional-chained property access on a JSON value: undefined (none) on
non-objects and on missing keys. -/
def jsGetField : Json → String → Option Json
  | .obj fs, key => lookupLastField fs key
  | _, _ => none

/-- Whether a JSON value is an array (Array.isArray). -/
def jsIsArray : Json → Bool
  | .arr _ => true
  | _ => false

/-- toNumberOrNull applied to a possibly undefined JSON field value (the
duck-typed call sites reading lat and lon from the geocoder response): the
v == null guard catches undefined and null, and otherwise String(v) is fed
through the comma replace and Number.  Number(String(n)) returns n for every
finite number, so the num case is the identity. -/
def jsToNumberOrNull : Option Json → Option ℚ
  | none => none
  | some .null => none
  | some (.bool b) => toNumberOrNull (if b then "true" else "false")
  | some (.num q) => some q
  | some (.str s) => toNumberOrNull s
  | some (.arr l) => toNumberOrNull (jsJoinList l)
  | some (.obj _) => toNumberOrNull "[object Object]"

/-- A validated coordinate pair, as the geocoder and cache return it. -/
structure LatLng where
  lat : ℚ
  lng : ℚ
deriving DecidableEq

/-- Outcome of the fetch of the geocoding service for one request: failure is a
network-level exception (or a response body that is not JSON, both caught by the
try block), and response carries the ok flag and the parsed body. -/
inductive HttpResult where
  | failure
  | response (ok : Bool) (body : Option Json)

/-- geocodeAddressNominatim from the source, with the network outcome for the
request explicit: null on a thrown exception, a non-ok status, a body that is
not a nonempty array, or first-element lat/lon fields that do not convert to
finite numbers; otherwise the pair object. -/
def geocodeAddressNominatim (resp : HttpResult) : Option LatLng :=
  match resp with
  | .failure => none
  | .response ok body =>
    if !ok then none
    else
      match body with
      | none => none
      | some data =>
        match data with
        | .arr (best :: _) =>
          match jsToNumberOrNull (jsGetField best "lat"), jsToNumberOrNull (jsGetField best "lon") with
          | some la, some ln => some ⟨la, ln⟩
          | _, _ => none
        | _ => none

/-- A persisted localStorage value abstracted by its JSON.parse outcome: json j
for stored strings that parse to j, malformed for strings on which JSON.parse
throws (which also covers the empty string, rejected by the !raw guard of the
source with the same null result). -/
inductive Stored where
  | json (j : Json)
  | malformed (s : String)

/-- The localStorage model: avail false means every access throws (storage
disabled), writable false means setItem throws (quota) while reads work, and
entries is the key/value content, most recent write first. -/
structure Storage where
  avail : Bool
  writable : Bool
  entries : List (String × Stored)

/-- The namespaced cache key of the source. -/
def cacheKey (address : String) : String := "geocodeCache::" ++ address

/-- localStorage.getItem on the entry list: the most recent write wins. -/
def lookupEntry : List (String × Stored) → String → Option Stored
  | [], _ => none
  | (k, v) :: rest, key => if k = key then some v else lookupEntry rest key

/-- The typeof-number field check of getCachedGeocode: the value of a key when it
is present and is a JSON number. -/
def numField (j : Json) (key : String) : Option ℚ :=
  match jsGetField j key with
  | some (.num q) => some q
  | _ => none

/-- getCachedGeocode from the source: reads the namespaced key inside a try
block, so a disabled storage, a missing or malformed entry, and non-numeric lat
or lng fields all yield null. -/
def getCachedGeocode (st : Storage) (address : String) : Option LatLng :=
  if st.avail then
    match lookupEntry st.entries (cacheKey address) with
    | none => none
    | some (.malformed _) => none
    | some (.json j) =>
      match numField j "lat", numField j "lng" with
      | some la, some ln => some ⟨la, ln⟩
      | _, _ => none
  else none

/-- setCachedGeocode from the source: writes JSON.stringify of the pair under the
namespaced key inside a try block, swallowing a throwing setItem (disabled
storage or full quota) and leaving the storage unchanged.  JSON.stringify of a
pair of finite numbers always parses back to the same object, which the Stored
abstraction records directly. -/
def setCachedGeocode (st : Storage) (address : String) (lat lng : ℚ) : Storage :=
  if st.avail && st.writable then
    ⟨st.avail, st.writable,
      (cacheKey address, .json (.obj [("lat", .num lat), ("lng", .num lng)])) :: st.entries⟩
  else st

/-- A normalised Place record as mapRowsToSchema builds it: every field is a
trimmed string, with the empty string for a missing column. -/
structure Place where
  nombre : String
  direccion : String
  descripcion : String
  coordenadas : String
  contacto : String
  horarios : String
  horarios2 : String
  tarifaAdultos : String
  tarifaExtranjeros : String
  tarifaEstudiantes : String
  latitud : String
  longitud : String
deriving DecidableEq

/-- Which branch of getCoordsForPlace produced the pair. -/
inductive Provenance where
  | explicitField
  | combinedField
  | cacheHit
  | geocoded
deriving DecidableEq

/-- Result of one resolution: the coordinate pair (none is unresolved), the
branch that produced it, the storage after the call, and the milliseconds the
call awaited in sleep. -/
structure ResolveResult where
  coords : Option (ℚ × ℚ)
  prov : Option Provenance
  store : Storage
  sleepMs : ℕ

/-- The sleep helper of the source, recording the awaited milliseconds. -/
def sleep (ms : ℕ) : ℕ := ms

/-- The explicit lat/lng step of getCoordsForPlace: parse both fields; with both
parsed, accept the given order when it passes the range checks, else accept the
swapped order when that passes, else fall through. -/
def explicitStep (place : Place) : Option (ℚ × ℚ) :=
  match toNumberOrNull place.latitud, toNumberOrNull place.longitud with
  | some lat, some lng =>
    if isValidLat lat && isValidLng lng then some (lat, lng)
    else if isValidLat lng && isValidLng lat then some (lng, lat)
    else none
  | _, _ => none

/-- The combined-field step of getCoordsForPlace: on a nonempty trimmed field,
parse it and accept the parsed pair in the given or the swapped order, else fall
through. -/
def combinedStep (place : Place) : Option (ℚ × ℚ) :=
  if jsTrim place.coordenadas = "" then none
  else
    match parseCoordinatePair (jsTrim place.coordenadas) with
    | some (c1, c2) =>
      if isValidLat c1 && isValidLng c2 then some (c1, c2)
      else if isValidLat c2 && isValidLng c1 then some (c2, c1)
      else none
    | none => none

/-- getCoordsForPlace from the source (HEAD side): explicit fields, then the
combined field, then the address path (cache hit, else a live geocode that
writes the cache and awaits GEOCODE_DELAY_MS).  The network is an oracle from
the trimmed address to the fetch outcome. -/
def getCoordsForPlace (place : Place) (st : Storage) (net : String → HttpResult) :
    ResolveResult :=
  match explicitStep place with
  | some p => ⟨some p, some .explicitField, st, 0⟩
  | none =>
    match combinedStep place with
    | some p => ⟨some p, some .combinedField, st, 0⟩
    | none =>
      if jsTrim place.direccion = "" then ⟨none, none, st, 0⟩
      else
        match getCachedGeocode st (jsTrim place.direccion) with
        | some c => ⟨some (c.lat, c.lng), some .cacheHit, st, 0⟩
        | none =>
          match geocodeAddressNominatim (net (jsTrim place.direccion)) with
          | none => ⟨none, none, st, 0⟩
          | some g =>
            ⟨some (g.lat, g.lng), some .geocoded,
              setCachedGeocode st (jsTrim place.direccion) g.lat g.lng,
              sleep GEOCODE_DELAY_MS⟩

/-- State of the marker loop in the DOMContentLoaded handler: the counters it
logs, the storage, and the total milliseconds awaited. -/
structure RunState where
  created : ℕ
  geocodedCount : ℕ
  usedLatLng : ℕ
  skipped : ℕ
  failed : ℕ
  store : Storage
  sleepTotal : ℕ

/-- One iteration of the marker loop: unresolved increments skipped and skips
the marker; otherwise the marker is created (adding it is modelled as
succeeding, so failed stays 0) and the lat/lng-vs-geocoded tally follows the
loose null checks of the source. -/
def stepPlace (net : String → HttpResult) (s : RunState) (p : Place) : RunState :=
  let r := getCoordsForPlace p s.store net
  match r.coords with
  | none =>
    ⟨s.created, s.geocodedCount, s.usedLatLng, s.skipped + 1, s.failed, r.store,
      s.sleepTotal + r.sleepMs⟩
  | some _ =>
    if (toNumberOrNull p.latitud).isSome && (toNumberOrNull p.longitud).isSome then
      ⟨s.created + 1, s.geocodedCount, s.usedLatLng + 1, s.skipped, s.failed, r.store,
        s.sleepTotal + r.sleepMs⟩
    else
      ⟨s.created + 1, s.geocodedCount + 1, s.usedLatLng, s.skipped, s.failed, r.store,
        s.sleepTotal + r.sleepMs⟩

/-- The marker loop: the Places processed one at a time, in order (the awaited
for loop of the source). -/
def runLoop (net : String → HttpResult) (places : List Place) (s : RunState) : RunState :=
  places.foldl (stepPlace net) s

/-- A run starting from given storage with all counters at zero. -/
def initState (st : Storage) : RunState := ⟨0, 0, 0, 0, 0, st, 0⟩

/-- A storage that is present, writable and empty. -/
def emptyStorage : Storage := ⟨true, true, []⟩

/-- The Place built from a row with every recognised column empty. -/
def blankPlace : Place := ⟨"", "", "", "", "", "", "", "", "", "", "", ""⟩

/-- A Place with the explicit fields swapped: latitude -99.13, longitude 19.43. -/
def swappedPlace : Place := ⟨"", "", "", "", "", "", "", "", "", "", "-99.13", "19.43"⟩

/-- A Place with valid explicit fields and decoy combined and address fields. -/
def validExplicitPlace : Place :=
  ⟨"", "x", "", "1,2", "", "", "", "", "", "", "19.43", "-99.13"⟩

/-- A network oracle that always answers with one Nominatim hit at 19.43, -99.13
(lat and lon as strings, as the service returns them). -/
def goodNet : String → HttpResult := fun _ =>
  .response true (some (.arr [.obj [("lat", .str "19.43"), ("lon", .str "-99.13")]]))

/-- A Place that can only resolve through a live geocode of address a. -/
def livePlaceA : Place := ⟨"", "a", "", "", "", "", "", "", "", "", "x", ""⟩

/-- A Place that can only resolve through a live geocode of address b. -/
def livePlaceB : Place := ⟨"", "b", "", "", "", "", "", "", "", "", "x", ""⟩

/-- A storage holding a cached pair for address a. -/
def cachedStorage : Storage :=
  ⟨true, true, [(cacheKey "a", .json (.obj [("lat", .num 1), ("lng", .num 2)]))]⟩

/-- A storage holding a malformed (non-JSON) entry for address bad. -/
def malformedStorage : Storage := ⟨true, true, [(cacheKey "bad", .malformed "oops")]⟩

/-! Helper lemmas shared by the claim theorems. -/

theorem cacheKey_inj {a b : String} (h : cacheKey a = cacheKey b) : a = b := by
  unfold cacheKey at h
  have hd : ("geocodeCache::" ++ a).data = ("geocodeCache::" ++ b).data := by rw [h]
  rw [String.data_append, String.data_append] at hd
  exact String.ext (List.append_cancel_left hd)

theorem isJsSpace_comma : isJsSpace ',' = false := by decide

theorem replaceFirstComma_of_all_space {l : List Char}
    (h : ∀ c ∈ l, isJsSpace c = true) : replaceFirstCommaList l = l := by
  induction l with
  | nil => rfl
  | cons c r ih =>
    have hc : c ≠ ',' := by
      intro hEq
      have := h c (List.mem_cons_self c r)
      rw [hEq, isJsSpace_comma] at this
      exact Bool.false_ne_true this
    simp only [replaceFirstCommaList, if_neg hc]
    rw [ih (fun x hx => h x (List.mem_cons_of_mem c hx))]

theorem jsTrimList_of_all_space {l : List Char}
    (h : ∀ c ∈ l, isJsSpace c = true) : jsTrimList l = [] := by
  unfold jsTrimList
  rw [List.dropWhile_eq_nil_iff.mpr h]
  rfl

theorem toNumberOrNull_of_all_space {s : String}
    (h : ∀ c ∈ s.data, isJsSpace c = true) : toNumberOrNull s = some 0 := by
  unfold toNumberOrNull jsStringToNumber
  rw [show (String.mk (replaceFirstCommaList s.data)).data = replaceFirstCommaList s.data from rfl,
    replaceFirstComma_of_all_space h, jsTrimList_of_all_space h]

theorem explicitStep_direct {p : Place} {la ln : ℚ}
    (h1 : toNumberOrNull p.latitud = some la) (h2 : toNumberOrNull p.longitud = some ln)
    (h3 : (isValidLat la && isValidLng ln) = true) :
    explicitStep p = some (la, ln) := by
  unfold explicitStep
  rw [h1, h2]
  simp [h3]

theorem explicitStep_swapped {p : Place} {la ln : ℚ}
    (h1 : toNumberOrNull p.latitud = some la) (h2 : toNumberOrNull p.longitud = some ln)
    (h3 : (isValidLat la && isValidLng ln) = false)
    (h4 : (isValidLat ln && isValidLng la) = true) :
    explicitStep p = some (ln, la) := by
  unfold explicitStep
  rw [h1, h2]
  simp [h3, h4]

theorem getCoordsForPlace_explicitCase {p : Place} {st : Storage}
    {net : String → HttpResult} {pr : ℚ × ℚ} (h : explicitStep p = some pr) :
    getCoordsForPlace p st net = ⟨some pr, some .explicitField, st, 0⟩ := by
  unfold getCoordsForPlace
  rw [h]

/-! Claim theorems. -/

/-- C2: toNumberOrNull maps the empty string and every whitespace-only string to 0 rather than
null; consequently a Place whose explicit latitude and longitude fields are empty strings is
parsed as the pair (0, 0) by the explicit-field step of getCoordsForPlace, and the combined,
cache and geocode fallback steps are never reached: for every storage and network oracle the
result is the explicit branch with storage unchanged and no delay awaited. -/
theorem blank_fields_parse_to_zero :
    toNumberOrNull "" = some 0 ∧
    (∀ s : String, (∀ c ∈ s.data, isJsSpace c = true) → toNumberOrNull s = some 0) ∧
    (∀ (place : Place) (st : Storage) (net : String → HttpResult),
      place.latitud = "" → place.longitud = "" →
      explicitStep place = some (0, 0) ∧
      getCoordsForPlace place st net = ⟨some (0, 0), some .explicitField, st, 0⟩) := by
  refine ⟨rfl, fun s h => toNumberOrNull_of_all_space h, ?_⟩
  intro place st net h1 h2
  have hE : explicitStep place = some (0, 0) :=
    explicitStep_direct (by rw [h1]; rfl) (by rw [h2]; rfl) (by decide)
  exact ⟨hE, getCoordsForPlace_explicitCase hE⟩

theorem blank_fields_parse_to_zero_witness :
    toNumberOrNull " \t " = some 0 ∧
    getCoordsForPlace blankPlace emptyStorage (fun _ => .failure) =
      ⟨some (0, 0), some .explicitField, emptyStorage, 0⟩ :=
  ⟨blank_fields_parse_to_zero.2.1 " \t " (by decide),
   (blank_fields_parse_to_zero.2.2 blankPlace emptyStorage (fun _ => .failure) rfl rfl).2⟩

/-- C1 (the code evaluated at the failing input): a Place whose address, combined field and
explicit latitude/longitude fields are all empty strings does not resolve to null: the
explicit-field branch returns (0, 0) because Number of the empty string is 0, the marker loop
creates a marker at the origin, the skipped counter stays 0 and usedLatLng is incremented,
contradicting the claim that such a Place is unresolved, excluded and counted as skipped. -/
theorem blankPlace_resolves_to_origin :
    getCoordsForPlace blankPlace emptyStorage (fun _ => .failure) =
      ⟨some (0, 0), some .explicitField, emptyStorage, 0⟩ ∧
    (runLoop (fun _ => .failure) [blankPlace] (initState emptyStorage)).skipped = 0 ∧
    (runLoop (fun _ => .failure) [blankPlace] (initState emptyStorage)).created = 1 ∧
    (runLoop (fun _ => .failure) [blankPlace] (initState emptyStorage)).usedLatLng = 1 :=
  ⟨rfl, rfl, rfl, rfl⟩

/-- C3: when both explicit fields parse to numbers and the given order fails the range checks
while the swapped order passes both, getCoordsForPlace returns the swapped pair with explicit
provenance, for every storage and network oracle, with the storage unchanged and no delay. -/
theorem explicit_swap_corrected (place : Place) (st : Storage) (net : String → HttpResult)
    (la ln : ℚ)
    (h1 : toNumberOrNull place.latitud = some la)
    (h2 : toNumberOrNull place.longitud = some ln)
    (h3 : (isValidLat la && isValidLng ln) = false)
    (h4 : (isValidLat ln && isValidLng la) = true) :
    getCoordsForPlace place st net = ⟨some (ln, la), some .explicitField, st, 0⟩ :=
  getCoordsForPlace_explicitCase (explicitStep_swapped h1 h2 h3 h4)

theorem explicit_swap_corrected_witness :
    toNumberOrNull "-99.13" = some (Rat.divInt (-9913) 100) ∧
    (isValidLat (Rat.divInt (-9913) 100) && isValidLng (Rat.divInt 1943 100)) = false ∧
    getCoordsForPlace swappedPlace emptyStorage (fun _ => .failure) =
      ⟨some (Rat.divInt 1943 100, Rat.divInt (-9913) 100), some .explicitField,
        emptyStorage, 0⟩ :=
  ⟨by decide, by decide,
   explicit_swap_corrected swappedPlace emptyStorage (fun _ => .failure)
     (Rat.divInt (-9913) 100) (Rat.divInt 1943 100)
     (by decide) (by decide) (by decide) (by decide)⟩

/-- C6: explicit fields parsing to a valid latitude and longitude are returned exactly, in the
given order, with explicit provenance; the combined field, the cache and the geocoder are not
consulted: the result is the same for every storage and network oracle, the storage is
returned unchanged and no delay is awaited. -/
theorem explicit_valid_unchanged (place : Place) (st : Storage) (net : String → HttpResult)
    (la ln : ℚ)
    (h1 : toNumberOrNull place.latitud = some la)
    (h2 : toNumberOrNull place.longitud = some ln)
    (h3 : isValidLat la = true) (h4 : isValidLng ln = true) :
    getCoordsForPlace place st net = ⟨some (la, ln), some .explicitField, st, 0⟩ :=
  getCoordsForPlace_explicitCase (explicitStep_direct h1 h2 (by rw [h3, h4]; rfl))

theorem pairFromTokens_directOnly {hint : Option Bounds} {x y : String} {pa pb : ℚ}
    (h1 : toNumberOrNull x = some pa) (h2 : toNumberOrNull y = some pb)
    (hv1 : (isValidLat pa && isValidLng pb) = true)
    (hv2 : (isValidLat pb && isValidLng pa) = false) :
    pairFromTokens hint x y = some (pa, pb) := by
  unfold pairFromTokens
  rw [h1, h2]
  simp [hv1, hv2]

theorem pairFromTokens_bothValid {hint : Option Bounds} {x y : String} {pa pb : ℚ}
    (h1 : toNumberOrNull x = some pa) (h2 : toNumberOrNull y = some pb)
    (hv1 : (isValidLat pa && isValidLng pb) = true)
    (hv2 : (isValidLat pb && isValidLng pa) = true) :
    pairFromTokens hint x y =
      match hint with
      | some bb =>
        if isInsideBounds pa pb (some bb) && !isInsideBounds pb pa (some bb) then some (pa, pb)
        else if isInsideBounds pb pa (some bb) && !isInsideBounds pa pb (some bb) then
          some (pb, pa)
        else some (pa, pb)
      | none => some (pa, pb) := by
  unfold pairFromTokens
  rw [h1, h2]
  simp [hv1, hv2]

theorem parseCoordinatePairWith_auto_std {hint : Option Bounds} {text : String}
    {t1 t2 : List Char} {p : ℚ × ℚ}
    (hsplit : splitRun (normalizeCoordText text) = [t1, t2])
    (hp : pairFromTokens hint ⟨t1⟩ ⟨t2⟩ = some p) :
    parseCoordinatePairWith .auto hint text = some p := by
  unfold parseCoordinatePairWith
  dsimp only
  rw [hsplit]
  dsimp only
  rw [hp]

theorem explicit_valid_unchanged_witness :
    toNumberOrNull "19.43" = some (Rat.divInt 1943 100) ∧
    isValidLat (Rat.divInt 1943 100) = true ∧
    getCoordsForPlace validExplicitPlace emptyStorage (fun _ => .failure) =
      ⟨some (Rat.divInt 1943 100, Rat.divInt (-9913) 100), some .explicitField,
        emptyStorage, 0⟩ :=
  ⟨by decide, by decide,
   explicit_valid_unchanged validExplicitPlace emptyStorage (fun _ => .failure)
     (Rat.divInt 1943 100) (Rat.divInt (-9913) 100)
     (by decide) (by decide) (by decide) (by decide)⟩

/-- C4: for a combined-coordinate text whose normalised form splits into exactly two numeric
tokens with both axis-order interpretations independently valid, parseCoordinatePair run in the
auto order of the source returns: with no bounds hint configured, the first-token-as-latitude
interpretation; with a hint containing exactly one interpretation, that interpretation; and
with a hint containing neither or both, again the first interpretation. -/
theorem combined_ambiguous_disambiguation (hint : Option Bounds) (text : String)
    (t1 t2 : List Char) (a b : ℚ)
    (hsplit : splitRun (normalizeCoordText text) = [t1, t2])
    (h1 : toNumberOrNull ⟨t1⟩ = some a) (h2 : toNumberOrNull ⟨t2⟩ = some b)
    (hv1 : (isValidLat a && isValidLng b) = true)
    (hv2 : (isValidLat b && isValidLng a) = true) :
    (hint = none → parseCoordinatePairWith .auto hint text = some (a, b)) ∧
    (∀ bb, hint = some bb →
      isInsideBounds a b (some bb) = true → isInsideBounds b a (some bb) = false →
      parseCoordinatePairWith .auto hint text = some (a, b)) ∧
    (∀ bb, hint = some bb →
      isInsideBounds b a (some bb) = true → isInsideBounds a b (some bb) = false →
      parseCoordinatePairWith .auto hint text = some (b, a)) ∧
    (∀ bb, hint = some bb →
      isInsideBounds a b (some bb) = isInsideBounds b a (some bb) →
      parseCoordinatePairWith .auto hint text = some (a, b)) := by
  have hbase := @pairFromTokens_bothValid hint ⟨t1⟩ ⟨t2⟩ a b h1 h2 hv1 hv2
  refine ⟨?_, ?_, ?_, ?_⟩
  · intro hn
    subst hn
    exact parseCoordinatePairWith_auto_std hsplit hbase
  · intro bb hb hin1 hin2
    subst hb
    refine parseCoordinatePairWith_auto_std hsplit ?_
    rw [hbase]
    simp [hin1, hin2]
  · intro bb hb hin2 hin1
    subst hb
    refine parseCoordinatePairWith_auto_std hsplit ?_
    rw [hbase]
    simp [hin1, hin2]
  · intro bb hb heq
    subst hb
    refine parseCoordinatePairWith_auto_std hsplit ?_
    rw [hbase]
    cases hcase : isInsideBounds a b (some bb) <;> rw [heq] at hcase <;> simp [heq, hcase]

/-- The bounds hint of the C4 example: a rectangle containing (50, 45) but not (45, 50). -/
def swappedOnlyHint : Bounds := ⟨49, 51, 44, 46⟩

theorem combined_ambiguous_disambiguation_witness :
    toNumberOrNull "45.0" = some 45 ∧
    (isValidLat (45 : ℚ) && isValidLng (50 : ℚ)) = true ∧
    parseCoordinatePairWith .auto none "45.0,50.0" = some (45, 50) ∧
    isInsideBounds 50 45 (some swappedOnlyHint) = true ∧
    isInsideBounds 45 50 (some swappedOnlyHint) = false ∧
    parseCoordinatePairWith .auto (some swappedOnlyHint) "45.0,50.0" = some (50, 45) :=
  ⟨by decide, by decide,
   (combined_ambiguous_disambiguation none "45.0,50.0" "45.0".data "50.0".data 45 50
     (by decide) (by decide) (by decide) (by decide) (by decide)).1 rfl,
   by decide, by decide,
   (combined_ambiguous_disambiguation (some swappedOnlyHint) "45.0,50.0"
     "45.0".data "50.0".data 45 50
     (by decide) (by decide) (by decide) (by decide) (by decide)).2.2.1 swappedOnlyHint rfl
     (by decide) (by decide)⟩

/-- C5: parseCoordinatePair (at the configuration constants of the source) is the identity up
to numeric parsing on already-clean lat,lng text: when the normalised text splits into exactly
two tokens whose first parses to a valid latitude and second to a valid longitude, and the
swapped reading is not valid, the parsed values are returned in the given order. -/
theorem combined_clean_identity (text : String) (t1 t2 : List Char) (a b : ℚ)
    (hsplit : splitRun (normalizeCoordText text) = [t1, t2])
    (h1 : toNumberOrNull ⟨t1⟩ = some a) (h2 : toNumberOrNull ⟨t2⟩ = some b)
    (hv1 : (isValidLat a && isValidLng b) = true)
    (hv2 : (isValidLat b && isValidLng a) = false) :
    parseCoordinatePair text = some (a, b) := by
  unfold parseCoordinatePair FORCE_COORDINATE_ORDER BOUNDS_HINT
  exact parseCoordinatePairWith_auto_std hsplit (pairFromTokens_directOnly h1 h2 hv1 hv2)

theorem combined_clean_identity_witness :
    toNumberOrNull "19.43" = some (Rat.divInt 1943 100) ∧
    toNumberOrNull "-99.13" = some (Rat.divInt (-9913) 100) ∧
    parseCoordinatePair "19.43,-99.13" =
      some (Rat.divInt 1943 100, Rat.divInt (-9913) 100) :=
  ⟨by decide, by decide,
   combined_clean_identity "19.43,-99.13" "19.43".data "-99.13".data
     (Rat.divInt 1943 100) (Rat.divInt (-9913) 100)
     (by decide) (by decide) (by decide) (by decide) (by decide)⟩

theorem getCoordsForPlace_cacheCase {place : Place} {st : Storage}
    {net : String → HttpResult} {c : LatLng}
    (h1 : explicitStep place = none) (h2 : combinedStep place = none)
    (h3 : jsTrim place.direccion ≠ "")
    (h4 : getCachedGeocode st (jsTrim place.direccion) = some c) :
    getCoordsForPlace place st net = ⟨some (c.lat, c.lng), some .cacheHit, st, 0⟩ := by
  unfold getCoordsForPlace
  rw [h1, h2, if_neg h3, h4]

theorem getCoordsForPlace_geocodeCase {place : Place} {st : Storage}
    {net : String → HttpResult} {g : LatLng}
    (h1 : explicitStep place = none) (h2 : combinedStep place = none)
    (h3 : jsTrim place.direccion ≠ "")
    (h4 : getCachedGeocode st (jsTrim place.direccion) = none)
    (h5 : geocodeAddressNominatim (net (jsTrim place.direccion)) = some g) :
    getCoordsForPlace place st net =
      ⟨some (g.lat, g.lng), some .geocoded,
        setCachedGeocode st (jsTrim place.direccion) g.lat g.lng, GEOCODE_DELAY_MS⟩ := by
  unfold getCoordsForPlace
  rw [h1, h2, if_neg h3, h4, h5]
  rfl

/-- C7: geocodeAddressNominatim never throws and never retries, returning null on a thrown
fetch, on a non-success status, on a body that is not a JSON array, on an empty result array,
and on first-element lat/lon fields that do not convert to numbers; it returns the pair object
exactly when every check passes; and an empty result array leaves the calling Place
unresolved, with no exception. -/
theorem geocode_failure_modes :
    (geocodeAddressNominatim .failure = none) ∧
    (∀ body, geocodeAddressNominatim (.response false body) = none) ∧
    (geocodeAddressNominatim (.response true none) = none) ∧
    (∀ j, jsIsArray j = false → geocodeAddressNominatim (.response true (some j)) = none) ∧
    (geocodeAddressNominatim (.response true (some (.arr []))) = none) ∧
    (∀ best rest, jsToNumberOrNull (jsGetField best "lat") = none ∨
        jsToNumberOrNull (jsGetField best "lon") = none →
      geocodeAddressNominatim (.response true (some (.arr (best :: rest)))) = none) ∧
    (∀ resp la ln, geocodeAddressNominatim resp = some ⟨la, ln⟩ ↔
      ∃ best rest, resp = .response true (some (.arr (best :: rest))) ∧
        jsToNumberOrNull (jsGetField best "lat") = some la ∧
        jsToNumberOrNull (jsGetField best "lon") = some ln) ∧
    (∀ (place : Place) (st : Storage), explicitStep place = none → combinedStep place = none →
      getCachedGeocode st (jsTrim place.direccion) = none →
      (getCoordsForPlace place st (fun _ => .response true (some (.arr [])))).coords =
        none) := by
  refine ⟨rfl, fun body => rfl, rfl, ?_, rfl, ?_, ?_, ?_⟩
  · intro j hj
    match j with
    | .null | .bool _ | .num _ | .str _ | .obj _ => rfl
    | .arr l => simp [jsIsArray] at hj
  · intro best rest h
    rcases h with h | h <;> simp [geocodeAddressNominatim, h]
  · intro resp la ln
    constructor
    · intro h
      match resp with
      | .failure => exact absurd h (by simp [geocodeAddressNominatim])
      | .response false body => exact absurd h (by simp [geocodeAddressNominatim])
      | .response true none => exact absurd h (by simp [geocodeAddressNominatim])
      | .response true (some j) =>
        match j with
        | .null | .bool _ | .num _ | .str _ | .obj _ =>
          exact absurd h (by simp [geocodeAddressNominatim])
        | .arr [] => exact absurd h (by simp [geocodeAddressNominatim])
        | .arr (best :: rest) =>
          cases hLat : jsToNumberOrNull (jsGetField best "lat") with
          | none => rw [geocodeAddressNominatim] at h; simp [hLat] at h
          | some x =>
            cases hLon : jsToNumberOrNull (jsGetField best "lon") with
            | none => rw [geocodeAddressNominatim] at h; simp [hLat, hLon] at h
            | some y =>
              rw [geocodeAddressNominatim] at h
              simp [hLat, hLon] at h
              exact ⟨best, rest, rfl, by rw [hLat, h.1], by rw [hLon, h.2]⟩
    · rintro ⟨best, rest, rfl, hLat, hLon⟩
      simp [geocodeAddressNominatim, hLat, hLon]
  · intro place st h1 h2 h3
    by_cases hA : jsTrim place.direccion = ""
    · unfold getCoordsForPlace
      rw [h1, h2, if_pos hA]
    · unfold getCoordsForPlace
      rw [h1, h2, if_neg hA, h3]
      rfl

theorem geocode_failure_modes_witness :
    geocodeAddressNominatim (.response true (some (.str "no results"))) = none ∧
    geocodeAddressNominatim
      (.response true (some (.arr [.obj [("display", .str "x")]]))) = none ∧
    geocodeAddressNominatim (goodNet "q") =
      some ⟨Rat.divInt 1943 100, Rat.divInt (-9913) 100⟩ ∧
    (getCoordsForPlace livePlaceA emptyStorage
      (fun _ => .response true (some (.arr [])))).coords = none :=
  ⟨geocode_failure_modes.2.2.2.1 (.str "no results") rfl,
   geocode_failure_modes.2.2.2.2.2.1 (.obj [("display", .str "x")]) [] (by left; rfl),
   (geocode_failure_modes.2.2.2.2.2.2.1 (goodNet "q")
     (Rat.divInt 1943 100) (Rat.divInt (-9913) 100)).mpr
     ⟨.obj [("lat", .str "19.43"), ("lon", .str "-99.13")], [], rfl, by decide, by decide⟩,
   geocode_failure_modes.2.2.2.2.2.2.2 livePlaceA emptyStorage (by decide) (by decide) rfl⟩

/-- C8: cache round trip: setting a pair for an address and reading that address back yields
exactly the pair whenever the storage write can succeed (storage present and writable), and
reading an address that was never set (no entry under its namespaced key) yields null. -/
theorem cache_roundtrip :
    (∀ (st : Storage) (a : String) (la ln : ℚ), st.avail = true → st.writable = true →
      getCachedGeocode (setCachedGeocode st a la ln) a = some ⟨la, ln⟩) ∧
    (∀ (st : Storage) (a : String), lookupEntry st.entries (cacheKey a) = none →
      getCachedGeocode st a = none) := by
  constructor
  · intro st a la ln hav hw
    unfold setCachedGeocode
    rw [hav, hw]
    simp only [Bool.and_self, if_true]
    unfold getCachedGeocode lookupEntry
    simp [numField, jsGetField, lookupLastField]
  · intro st a hl
    unfold getCachedGeocode
    cases hav : st.avail
    · rfl
    · rw [hl]
      rfl

theorem cache_roundtrip_witness :
    emptyStorage.avail = true ∧
    getCachedGeocode
      (setCachedGeocode emptyStorage "Av. Reforma 1"
        (Rat.divInt 1943 100) (Rat.divInt (-9913) 100)) "Av. Reforma 1" =
      some ⟨Rat.divInt 1943 100, Rat.divInt (-9913) 100⟩ ∧
    getCachedGeocode emptyStorage "Av. Reforma 1" = none :=
  ⟨rfl,
   cache_roundtrip.1 emptyStorage "Av. Reforma 1"
     (Rat.divInt 1943 100) (Rat.divInt (-9913) 100) rfl rfl,
   cache_roundtrip.2 emptyStorage "Av. Reforma 1" rfl⟩

/-- C9: every cache failure is contained: getCachedGeocode returns null rather than throwing
when the storage read throws (storage disabled), when the stored entry is malformed (JSON.parse
throws), and when the entry lacks numeric lat and lng fields; setCachedGeocode swallows a
failing write, leaving the storage unchanged; and a failing cache never aborts or changes the
outcome of resolution: with an unavailable storage, getCoordsForPlace yields the same
coordinates and the same awaited delay as with an empty working storage. -/
theorem cache_failures_contained :
    (∀ (st : Storage) (a : String), st.avail = false → getCachedGeocode st a = none) ∧
    (∀ (st : Storage) (a s : String),
      lookupEntry st.entries (cacheKey a) = some (.malformed s) →
      getCachedGeocode st a = none) ∧
    (∀ (st : Storage) (a : String) (j : Json),
      lookupEntry st.entries (cacheKey a) = some (.json j) →
      numField j "lat" = none ∨ numField j "lng" = none →
      getCachedGeocode st a = none) ∧
    (∀ (st : Storage) (a : String) (la ln : ℚ), (st.avail && st.writable) = false →
      setCachedGeocode st a la ln = st) ∧
    (∀ (place : Place) (st : Storage) (net : String → HttpResult), st.avail = false →
      (getCoordsForPlace place st net).coords =
        (getCoordsForPlace place emptyStorage net).coords ∧
      (getCoordsForPlace place st net).sleepMs =
        (getCoordsForPlace place emptyStorage net).sleepMs) := by
  refine ⟨?_, ?_, ?_, ?_, ?_⟩
  · intro st a hav
    unfold getCachedGeocode
    rw [hav]
    rfl
  · intro st a s hl
    unfold getCachedGeocode
    cases hav : st.avail
    · rfl
    · rw [hl]
      rfl
  · intro st a j hl hnum
    unfold getCachedGeocode
    cases hav : st.avail
    · rfl
    · rw [hl]
      rcases hnum with h | h
      · simp [h]
      · cases hLat : numField j "lat" <;> simp [h, hLat]
  · intro st a la ln h
    unfold setCachedGeocode
    rw [h]
    rfl
  · intro place st net hav
    have hcache1 : getCachedGeocode st (jsTrim place.direccion) = none := by
      unfold getCachedGeocode
      rw [hav]
      rfl
    have hcache2 : getCachedGeocode emptyStorage (jsTrim place.direccion) = none := rfl
    unfold getCoordsForPlace
    cases hE : explicitStep place with
    | some p => exact ⟨rfl, rfl⟩
    | none =>
      cases hC : combinedStep place with
      | some p => exact ⟨rfl, rfl⟩
      | none =>
        by_cases hA : jsTrim place.direccion = ""
        · simp [hA]
        · simp only [if_neg hA]
          rw [hcache1, hcache2]
          cases hG : geocodeAddressNominatim (net (jsTrim place.direccion)) with
          | none => exact ⟨rfl, rfl⟩
          | some g => exact ⟨rfl, rfl⟩

theorem cache_failures_contained_witness :
    getCachedGeocode ⟨false, true, []⟩ "x" = none ∧
    getCachedGeocode malformedStorage "bad" = none ∧
    getCachedGeocode ⟨true, true, [(cacheKey "odd", .json (.str "not an object"))]⟩ "odd" =
      none ∧
    setCachedGeocode ⟨false, false, []⟩ "x" 1 2 = ⟨false, false, []⟩ ∧
    (getCoordsForPlace livePlaceA ⟨false, true, []⟩ goodNet).coords =
      (getCoordsForPlace livePlaceA emptyStorage goodNet).coords :=
  ⟨cache_failures_contained.1 ⟨false, true, []⟩ "x" rfl,
   cache_failures_contained.2.1 malformedStorage "bad" "oops" rfl,
   cache_failures_contained.2.2.1 ⟨true, true, [(cacheKey "odd", .json (.str "not an object"))]⟩
     "odd" (.str "not an object") rfl (Or.inl rfl),
   cache_failures_contained.2.2.2.1 ⟨false, false, []⟩ "x" 1 2 rfl,
   (cache_failures_contained.2.2.2.2 livePlaceA ⟨false, true, []⟩ goodNet rfl).1⟩

theorem setCachedGeocode_avail (st : Storage) (a : String) (la ln : ℚ) :
    (setCachedGeocode st a la ln).avail = st.avail := by
  unfold setCachedGeocode
  split <;> rfl

theorem setCachedGeocode_writable (st : Storage) (a : String) (la ln : ℚ) :
    (setCachedGeocode st a la ln).writable = st.writable := by
  unfold setCachedGeocode
  split <;> rfl

theorem setCachedGeocode_entries_of_ok {st : Storage} (hav : st.avail = true)
    (hw : st.writable = true) (a : String) (la ln : ℚ) :
    (setCachedGeocode st a la ln).entries =
      (cacheKey a, .json (.obj [("lat", .num la), ("lng", .num ln)])) :: st.entries := by
  unfold setCachedGeocode
  rw [hav, hw]
  rfl

theorem getCachedGeocode_of_miss {st : Storage} {a : String}
    (h : lookupEntry st.entries (cacheKey a) = none) :
    getCachedGeocode st a = none := by
  unfold getCachedGeocode
  cases st.avail
  · rfl
  · rw [h]
    rfl

theorem runLoop_sleepTotal (net : String → HttpResult) (places : List Place) :
    ∀ s : RunState, s.store.avail = true → s.store.writable = true →
    (∀ p ∈ places, explicitStep p = none ∧ combinedStep p = none ∧
      jsTrim p.direccion ≠ "" ∧
      (geocodeAddressNominatim (net (jsTrim p.direccion))).isSome = true) →
    (places.map fun p => jsTrim p.direccion).Nodup →
    (∀ p ∈ places, lookupEntry s.store.entries (cacheKey (jsTrim p.direccion)) = none) →
    (runLoop net places s).sleepTotal = s.sleepTotal + GEOCODE_DELAY_MS * places.length := by
  induction places with
  | nil =>
    intro s _ _ _ _ _
    simp [runLoop]
  | cons p rest ih =>
    intro s hav hw hlive hnodup hcache
    obtain ⟨hE, hC, hA, hG⟩ := hlive p (List.mem_cons_self p rest)
    obtain ⟨g, hg⟩ := Option.isSome_iff_exists.mp hG
    have hcac : getCachedGeocode s.store (jsTrim p.direccion) = none :=
      getCachedGeocode_of_miss (hcache p (List.mem_cons_self p rest))
    have hr := getCoordsForPlace_geocodeCase hE hC hA hcac hg
    have hstep : stepPlace net s p =
        if (toNumberOrNull p.latitud).isSome && (toNumberOrNull p.longitud).isSome then
          ⟨s.created + 1, s.geocodedCount, s.usedLatLng + 1, s.skipped, s.failed,
            setCachedGeocode s.store (jsTrim p.direccion) g.lat g.lng,
            s.sleepTotal + GEOCODE_DELAY_MS⟩
        else
          ⟨s.created + 1, s.geocodedCount + 1, s.usedLatLng, s.skipped, s.failed,
            setCachedGeocode s.store (jsTrim p.direccion) g.lat g.lng,
            s.sleepTotal + GEOCODE_DELAY_MS⟩ := by
      unfold stepPlace
      rw [hr]
    have hstore : (stepPlace net s p).store =
        setCachedGeocode s.store (jsTrim p.direccion) g.lat g.lng := by
      rw [hstep]
      split <;> rfl
    have hsleep : (stepPlace net s p).sleepTotal = s.sleepTotal + GEOCODE_DELAY_MS := by
      rw [hstep]
      split <;> rfl
    have hav2 : (stepPlace net s p).store.avail = true := by
      rw [hstore, setCachedGeocode_avail]
      exact hav
    have hw2 : (stepPlace net s p).store.writable = true := by
      rw [hstore, setCachedGeocode_writable]
      exact hw
    have hnodup2 := (List.nodup_cons.mp hnodup).2
    have hnotmem := (List.nodup_cons.mp hnodup).1
    have hcache2 : ∀ q ∈ rest,
        lookupEntry (stepPlace net s p).store.entries (cacheKey (jsTrim q.direccion)) =
          none := by
      intro q hq
      rw [hstore, setCachedGeocode_entries_of_ok hav hw]
      unfold lookupEntry
      rw [if_neg, hcache q (List.mem_cons_of_mem p hq)]
      intro hEq
      have h2 := cacheKey_inj hEq
      refine hnotmem ?_
      rw [show (fun r => jsTrim r.direccion) p = jsTrim p.direccion from rfl, h2]
      exact List.mem_map_of_mem (fun r => jsTrim r.direccion) hq
    have hmain := ih (stepPlace net s p) hav2 hw2
      (fun q hq => hlive q (List.mem_cons_of_mem p hq)) hnodup2 hcache2
    have hcons : runLoop net (p :: rest) s = runLoop net rest (stepPlace net s p) := rfl
    rw [hcons, hmain, hsleep, List.length_cons]
    unfold GEOCODE_DELAY_MS
    omega

/-- C10: resolving N Places that each require a live geocoding call, one at a time in
sequence (the loop of the source), accumulates exactly N times GEOCODE_DELAY_MS of awaited
delay, hence at least (N-1) times GEOCODE_DELAY_MS; a delay of GEOCODE_DELAY_MS is awaited
by every resolution that performs a successful live geocode; and a cache hit awaits no
delay at all. -/
theorem throttling_enforced (net : String → HttpResult) (places : List Place) (st : Storage)
    (hav : st.avail = true) (hw : st.writable = true)
    (hlive : ∀ p ∈ places, explicitStep p = none ∧ combinedStep p = none ∧
      jsTrim p.direccion ≠ "" ∧
      (geocodeAddressNominatim (net (jsTrim p.direccion))).isSome = true)
    (hnodup : (places.map fun p => jsTrim p.direccion).Nodup)
    (hcache : ∀ p ∈ places, lookupEntry st.entries (cacheKey (jsTrim p.direccion)) = none) :
    (runLoop net places (initState st)).sleepTotal = GEOCODE_DELAY_MS * places.length ∧
    GEOCODE_DELAY_MS * (places.length - 1) ≤ (runLoop net places (initState st)).sleepTotal ∧
    (∀ (place : Place) (stx : Storage) (g : LatLng),
      explicitStep place = none → combinedStep place = none → jsTrim place.direccion ≠ "" →
      getCachedGeocode stx (jsTrim place.direccion) = none →
      geocodeAddressNominatim (net (jsTrim place.direccion)) = some g →
      (getCoordsForPlace place stx net).sleepMs = GEOCODE_DELAY_MS) ∧
    (∀ (place : Place) (stx : Storage) (c : LatLng),
      explicitStep place = none → combinedStep place = none → jsTrim place.direccion ≠ "" →
      getCachedGeocode stx (jsTrim place.direccion) = some c →
      (getCoordsForPlace place stx net).sleepMs = 0) := by
  have heq := runLoop_sleepTotal net places (initState st) hav hw hlive hnodup hcache
  have heq2 : (runLoop net places (initState st)).sleepTotal =
      GEOCODE_DELAY_MS * places.length := by
    rw [heq]
    simp [initState]
  refine ⟨heq2, ?_, ?_, ?_⟩
  · rw [heq2]
    exact Nat.mul_le_mul_left GEOCODE_DELAY_MS (Nat.sub_le places.length 1)
  · intro place stx g h1 h2 h3 h4 h5
    rw [getCoordsForPlace_geocodeCase h1 h2 h3 h4 h5]
  · intro place stx c h1 h2 h3 h4
    rw [getCoordsForPlace_cacheCase h1 h2 h3 h4]

theorem throttling_enforced_witness :
    (runLoop goodNet [livePlaceA, livePlaceB] (initState emptyStorage)).sleepTotal =
      GEOCODE_DELAY_MS * 2 ∧
    GEOCODE_DELAY_MS * 1 ≤
      (runLoop goodNet [livePlaceA, livePlaceB] (initState emptyStorage)).sleepTotal ∧
    (getCoordsForPlace livePlaceA emptyStorage goodNet).sleepMs = GEOCODE_DELAY_MS ∧
    (getCoordsForPlace livePlaceA cachedStorage goodNet).sleepMs = 0 := by
  have h := throttling_enforced goodNet [livePlaceA, livePlaceB] emptyStorage rfl rfl
    (by decide) (by decide) (by intro p hp; rfl)
  exact ⟨h.1, h.2.1, h.2.2.1 livePlaceA emptyStorage ⟨Rat.divInt 1943 100,
      Rat.divInt (-9913) 100⟩ (by decide) (by decide) (by decide) rfl (by decide),
    h.2.2.2 livePlaceA cachedStorage ⟨1, 2⟩ (by decide) (by decide) (by decide) (by decide)⟩

end Mapas
